import Mathlib

/-!
Shallow embedding of the placement-and-finalization engine of the
signdoc-easy-upload repository: the placeholder and signature-overlay
stores, the coordinate transforms, the recipient ordering model, and the
two finalization pipelines (PDF object edit and canvas rasterization).

Coordinates are modelled as rationals (`ℚ`); JavaScript page indices are
modelled as `Nat` (array indices), list indices that may be negative as
`Int`.
-/

namespace SignDoc

/-- A placeholder record: `{id, type: "signature"|"text", label, x, y, page, value?}`
from `useDocumentFinalization.ts` / `SignDocument.tsx`. -/
structure Placeholder where
  id : String
  type : String
  label : String
  x : ℚ
  y : ℚ
  page : Nat
  value : Option String
  deriving DecidableEq, Repr

/-- A placed-signature overlay instance: `{url, x, y, page}`
(`SignaturePosition` in the source). -/
structure SignaturePosition where
  url : String
  x : ℚ
  y : ℚ
  page : Nat
  deriving DecidableEq, Repr

/-- A document-space position `{x, y, page}` as passed to `handleApplySignature`. -/
structure Position where
  x : ℚ
  y : ℚ
  page : Nat
  deriving DecidableEq, Repr

/-- JavaScript truthiness of an optional string value (`p.value` is truthy
iff it is present and non-empty). -/
def isTruthy : Option String → Bool
  | none => false
  | some s => s ≠ ""

/-- The text placeholders the finalize loops operate on:
`placeholders.filter(p => p.type === "text" && p.value)`. -/
def textWithValue (placeholders : List Placeholder) : List Placeholder :=
  placeholders.filter (fun p => p.type == "text" && isTruthy p.value)

/-- JavaScript `a || b` on an optional string (used as
`placeholder.value || placeholder.label`). -/
def jsOrElse (v : Option String) (fallback : String) : String :=
  match v with
  | none => fallback
  | some s => if s = "" then fallback else s

/-- The early-return precondition of `handleFinalizeDocument`:
`if (!file || (signatures.length === 0 && placeholders.length === 0))` the
function errors out before any document processing.  Returns `true` when
finalization fails at the precondition. -/
def finalizePrecondFails (filePresent : Bool) (signatures : List SignaturePosition)
    (placeholders : List Placeholder) : Bool :=
  !filePresent || (signatures.length == 0 && placeholders.length == 0)

/-- JavaScript `Math.min` on rationals. -/
def jsMin (a b : ℚ) : ℚ := if a ≤ b then a else b

/-- JavaScript `Math.max` on rationals. -/
def jsMax (a b : ℚ) : ℚ := if a ≤ b then b else a

theorem jsMin_eq_min (a b : ℚ) : jsMin a b = min a b := by
  simp [jsMin, min_def]

theorem jsMax_eq_max (a b : ℚ) : jsMax a b = max a b := by
  rcases le_total a b with h | h
  · simp [jsMax, max_def, h]
  · rcases eq_or_lt_of_le h with rfl | hlt
    · simp [jsMax]
    · simp [jsMax, max_def, not_le.mpr hlt, le_of_lt hlt]

/-- Canvas-path x clamp for text placeholders:
`Math.min(Math.max(placeholder.x, 0), canvas.width - 100)`. -/
def clampTextX (x width : ℚ) : ℚ :=
  jsMin (jsMax x 0) (width - 100)

/-- Canvas-path y clamp for text placeholders:
`Math.min(Math.max(placeholder.y, 0), canvas.height - 20)`. -/
def clampTextY (y height : ℚ) : ℚ :=
  jsMin (jsMax y 0) (height - 20)

/-- Canvas-path clamp for signature overlays:
`Math.min(Math.max(signature.x, 0), canvas.width - sigWidth)` with
`sigWidth = 200` (and `sigHeight = 50` for y). -/
def clampSigX (x width : ℚ) : ℚ :=
  jsMin (jsMax x 0) (width - 200)

def clampSigY (y height : ℚ) : ℚ :=
  jsMin (jsMax y 0) (height - 50)

/-- One text-field drawing action on the raster canvas: the translucent
backing rectangle at the clamped position, then the text at `(x+5, y+17)`. -/
structure CanvasTextDraw where
  rectX : ℚ
  rectY : ℚ
  rectW : ℚ
  rectH : ℚ
  text : String
  textX : ℚ
  textY : ℚ
  deriving DecidableEq, Repr

/-- The canvas-path text loop of `handleFinalizeDocument`: for each
placeholder in `placeholders.filter(p => p.type === "text" && p.value)`,
clamp, fill a 150×25 backing rectangle, draw `placeholder.value || ""`. -/
def canvasTextDraws (width height : ℚ) (placeholders : List Placeholder) :
    List CanvasTextDraw :=
  (textWithValue placeholders).map (fun p =>
    let x := clampTextX p.x width
    let y := clampTextY p.y height
    { rectX := x, rectY := y, rectW := 150, rectH := 25,
      text := jsOrElse p.value "", textX := x + 5, textY := y + 17 })

/-- A `page.drawImage` call in the PDF path: position, fixed 200×50 size. -/
structure ImageDraw where
  url : String
  x : ℚ
  y : ℚ
  width : ℚ
  height : ℚ
  deriving DecidableEq, Repr

/-- The `rgb` colour triple from pdf-lib, as used by `rgb(0, 0, 0)`. -/
def rgb (r g b : ℚ) : ℚ × ℚ × ℚ := (r, g, b)

/-- A `page.drawText` call in the PDF path: string, position, size, colour. -/
structure TextDraw where
  text : String
  x : ℚ
  y : ℚ
  size : ℚ
  color : ℚ × ℚ × ℚ
  deriving DecidableEq, Repr

/-- The PDF signature loop of `handleFinalizeDocument`: each overlay is
drawn on its page at `(x, height - y - 50)`, 200×50; if
`signature.page >= pages.length` the loop throws `"Invalid page number"`,
which aborts the whole finalize call.  A page is represented by its height. -/
def pdfSignatureDraws (pageHeights : List ℚ) :
    List SignaturePosition → Except String (List ImageDraw)
  | [] => Except.ok []
  | signature :: rest =>
    match pageHeights.get? signature.page with
    | none => Except.error "Invalid page number"
    | some height =>
      match pdfSignatureDraws pageHeights rest with
      | Except.error e => Except.error e
      | Except.ok tail =>
        Except.ok ({ url := signature.url, x := signature.x,
                     y := height - signature.y - 50,
                     width := 200, height := 50 } :: tail)

/-- The PDF text loop of `handleFinalizeDocument`: for each placeholder in
`placeholders.filter(p => p.type === "text" && p.value)`, skip it
(`continue`) when `placeholder.page >= pages.length`, otherwise draw
`placeholder.value || placeholder.label` at `(x, height - y - 20)`,
size 12, `rgb(0,0,0)`. -/
def pdfTextDraws (pageHeights : List ℚ) (placeholders : List Placeholder) :
    List TextDraw :=
  (textWithValue placeholders).filterMap (fun p =>
    match pageHeights.get? p.page with
    | none => none
    | some height =>
      some { text := jsOrElse p.value p.label, x := p.x,
             y := height - p.y - 20, size := 12, color := rgb 0 0 0 })

/-- The whole PDF finalization body after the precondition: process the
signature loop first (any out-of-range overlay page throws and aborts,
producing no artifact), then the text loop; on success the output artifact
is the pair of draw lists. -/
def finalizePdf (pageHeights : List ℚ) (signatures : List SignaturePosition)
    (placeholders : List Placeholder) :
    Except String (List ImageDraw × List TextDraw) :=
  match pdfSignatureDraws pageHeights signatures with
  | Except.error e => Except.error e
  | Except.ok sigDraws => Except.ok (sigDraws, pdfTextDraws pageHeights placeholders)

/-- Function `handleApplySignature` from `useSignatureManagement` (and
`SignDocument.tsx`): requires a signature image; no-op when
`signatures.findIndex(sig => sig.x === position.x && sig.y === position.y
&& sig.page === position.page) !== -1`; otherwise appends the new overlay. -/
def handleApplySignature (signatureImage : Option String)
    (signatures : List SignaturePosition) (position : Position) :
    List SignaturePosition :=
  match signatureImage with
  | none => signatures
  | some img =>
    if signatures.any (fun sig =>
        sig.x == position.x && sig.y == position.y && sig.page == position.page) then
      signatures
    else
      signatures ++ [{ url := img, x := position.x, y := position.y,
                       page := position.page }]

/-- Number of stored overlay instances at an exact `(x, y, page)` triple. -/
def countAt (signatures : List SignaturePosition) (position : Position) : Nat :=
  (signatures.filter (fun sig =>
    sig.x == position.x && sig.y == position.y && sig.page == position.page)).length

/-- Function `handleSignatureMove` from `useSignatureManagement`: early return when
`signatureIndex < 0 || signatureIndex >= signatures.length`; otherwise the
instance at that index gets its `x` and `y` replaced. -/
def handleSignatureMove (signatures : List SignaturePosition)
    (signatureIndex : Int) (newX newY : ℚ) : List SignaturePosition :=
  if signatureIndex < 0 ∨ (signatures.length : Int) ≤ signatureIndex then
    signatures
  else
    match signatures.get? signatureIndex.toNat with
    | none => signatures
    | some sig =>
      signatures.set signatureIndex.toNat { sig with x := newX, y := newY }

/-- Function `handlePlaceholderDelete` from `usePlaceholderManagement` (and
`SignDocument.tsx`): find the placeholder by id; if present remove it and,
when it is signature-kind, filter out every overlay at exactly its
`(x, y, page)`.  Returns the updated placeholder and overlay stores. -/
def handlePlaceholderDelete (placeholderId : String)
    (placeholders : List Placeholder) (signatures : List SignaturePosition) :
    List Placeholder × List SignaturePosition :=
  match placeholders.find? (fun p => p.id == placeholderId) with
  | none => (placeholders, signatures)
  | some deleted =>
    (placeholders.filter (fun p => !(p.id == placeholderId)),
     if deleted.type == "signature" then
       signatures.filter (fun sig =>
         !(sig.x == deleted.x && sig.y == deleted.y && sig.page == deleted.page))
     else signatures)

/-- The `DocumentViewer.handleMouseMove` pointer-to-document transform:
`((clientX - rect.left) / scale, (clientY - rect.top) / scale)`. -/
def toDocumentSpace (px py ox oy s : ℚ) : ℚ × ℚ :=
  ((px - ox) / s, (py - oy) / s)

/-- The `DocumentViewer.renderSignatures` document-to-screen transform: the
overlay is positioned `x * scale, y * scale` from the content origin
`(ox, oy)`. -/
def toScreenSpace (x y ox oy s : ℚ) : ℚ × ℚ :=
  (ox + x * s, oy + y * s)

/-- A recipient record `{id, name, email, order, status}` from
`RecipientOrderDialog.tsx`. -/
structure Recipient where
  id : String
  name : String
  email : String
  order : Nat
  status : String
  deriving DecidableEq, Repr

/-- The `recipients.map((r, index) => ...)` body of `handleOrderTypeChange`,
carrying the running index. -/
def handleOrderTypeChangeAux (newOrderType : String) :
    Nat → List Recipient → List Recipient
  | _, [] => []
  | index, r :: rest =>
    { r with order := if newOrderType == "without-order" then 1 else index + 1 } ::
      handleOrderTypeChangeAux newOrderType (index + 1) rest

/-- Function `handleOrderTypeChange` from `RecipientOrderDialog.tsx`: switching to
`"without-order"` (simultaneous) sets every order to 1; switching to
`"with-order"` (sequential) sets order `index + 1` by list position. -/
def handleOrderTypeChange (newOrderType : String)
    (recipients : List Recipient) : List Recipient :=
  handleOrderTypeChangeAux newOrderType 0 recipients

/-! ### C1: the empty-finalization precondition -/

/-- C1 counterexample: with source bytes present, a store holding exactly one
text placeholder with no value (so the list filtered to text-kind with
non-empty value is empty) and no overlays does NOT fail the precondition:
`handleFinalizeDocument` proceeds past the check, contradicting the claimed
"fails if both ... are empty" direction. -/
theorem c1_counterexample :
    finalizePrecondFails true []
      [{ id := "p1", type := "text", label := "Name", x := 10, y := 20,
         page := 0, value := none }] = false
    ∧ textWithValue
      [{ id := "p1", type := "text", label := "Name", x := 10, y := 20,
         page := 0, value := none }] = [] := by
  constructor
  · simp [finalizePrecondFails]
  · simp [textWithValue, isTruthy]

/-- C1 (amended): with source bytes present, finalization fails at the
precondition if and only if the RAW placeholder list and the signature
overlay list are both empty; the filter to text-kind placeholders with
non-empty value plays no part in the check.  In particular whenever at
least one text placeholder with non-empty value or one overlay exists the
operation proceeds past the check. -/
theorem c1_precondition_raw_lists :
    ∀ (signatures : List SignaturePosition) (placeholders : List Placeholder),
      finalizePrecondFails true signatures placeholders = true ↔
        (signatures = [] ∧ placeholders = []) := by
  intro signatures placeholders
  simp [finalizePrecondFails, List.length_eq_zero]

/-! ### C2: canvas-path clamping of text placeholders -/

/-- C2 counterexample: in the canvas path, a text placeholder at `x = 790`
on an 800-wide canvas is drawn with its backing rectangle at `x = 700`
(the clamp upper bound is `canvas.width - 100`, not `canvas.width - 150`),
not at `x = 650` as the claim states. -/
theorem c2_counterexample :
    (canvasTextDraws 800 600
      [{ id := "p1", type := "text", label := "Name", x := 790, y := 20,
         page := 0, value := some "Alice" }]).map (fun d => d.rectX) = [700]
    ∧ (700 : ℚ) ≠ 650 := by
  refine ⟨?_, by norm_num⟩
  have hf : textWithValue
      [{ id := "p1", type := "text", label := "Name", x := 790, y := 20,
         page := 0, value := some "Alice" }] =
      [{ id := "p1", type := "text", label := "Name", x := 790, y := 20,
         page := 0, value := some "Alice" }] := by decide
  rw [canvasTextDraws, hf]
  norm_num [clampTextX, jsMin, jsMax]

/-- C2 (amended): in the canvas path every drawn text field has its x
clamped to `[0, canvasWidth - 100]` (even though the backing rectangle
drawn afterwards is 150 wide): the drawn x-coordinates are exactly
`min (max x 0) (width - 100)` over the filtered placeholders, this value
lies in `[0, width - 100]` whenever `width ≥ 100`, and a text placeholder
at `x = 790` on an 800-wide canvas is drawn at `x = 700`. -/
theorem c2_clamp_window :
    (∀ (width height : ℚ) (placeholders : List Placeholder),
        (canvasTextDraws width height placeholders).map (fun d => d.rectX) =
          (textWithValue placeholders).map (fun p => clampTextX p.x width))
    ∧ (∀ x width : ℚ, 100 ≤ width →
        0 ≤ clampTextX x width ∧ clampTextX x width ≤ width - 100)
    ∧ clampTextX 790 800 = 700 := by
  refine ⟨?_, ?_, ?_⟩
  · intro width height placeholders
    simp [canvasTextDraws, List.map_map]
  · intro x width hw
    rw [clampTextX, jsMin_eq_min, jsMax_eq_max]
    constructor
    · apply le_min
      · exact le_max_right x 0
      · linarith
    · exact min_le_right _ _
  · norm_num [clampTextX, jsMin, jsMax]

/-- C2 witness: the clamp-window bounds applied at the concrete scenario
input `x = 790`, `width = 800`. -/
theorem c2_clamp_window_witness :
    (100 : ℚ) ≤ 800 ∧ 0 ≤ clampTextX 790 800 ∧ clampTextX 790 800 ≤ 800 - 100 := by
  refine ⟨by norm_num, c2_clamp_window.2.1 790 800 (by norm_num)⟩

/-! ### C3: cascade deletion of overlays -/

/-- C3 counterexample: deleting the signature-kind placeholder at
`(10, 10)` on page 0 leaves an overlay at `(12, 10)` on page 0 untouched,
although that overlay is within the claimed tolerance of 5 document-space
units of the placeholder (distance 2 in x, 0 in y). -/
theorem c3_counterexample :
    (handlePlaceholderDelete "p3"
      [{ id := "p3", type := "signature", label := "Sig", x := 10, y := 10,
         page := 0, value := some "img" }]
      [{ url := "img", x := 12, y := 10, page := 0 }]).2 =
      [{ url := "img", x := 12, y := 10, page := 0 }]
    ∧ |(12 : ℚ) - 10| < 5 ∧ |(10 : ℚ) - 10| < 5 := by
  refine ⟨?_, by norm_num, by norm_num⟩
  simp [handlePlaceholderDelete, List.find?]

/-- C3 (amended): deleting a signature-kind placeholder removes exactly the
overlay instances whose `(x, y, page)` is EXACTLY equal to the
placeholder's (overlays merely within tolerance 5 but not equal are kept);
deleting a text-kind placeholder leaves the overlay store unchanged. -/
theorem c3_exact_match_cascade :
    ∀ (placeholderId : String) (placeholders : List Placeholder)
      (signatures : List SignaturePosition) (deleted : Placeholder),
      placeholders.find? (fun p => p.id == placeholderId) = some deleted →
      ((deleted.type = "signature" →
          (handlePlaceholderDelete placeholderId placeholders signatures).2 =
            signatures.filter (fun sig =>
              !(sig.x == deleted.x && sig.y == deleted.y && sig.page == deleted.page)))
        ∧ (deleted.type = "text" →
          (handlePlaceholderDelete placeholderId placeholders signatures).2 =
            signatures)) := by
  intro placeholderId placeholders signatures deleted hfind
  constructor
  · intro htype
    simp [handlePlaceholderDelete, hfind, htype]
  · intro htype
    simp [handlePlaceholderDelete, hfind, htype]

/-- C3 witness: deleting the signature-kind placeholder `"p3"` at
`(10, 10)` removes the overlay at exactly `(10, 10)` and keeps the one at
`(12, 10)`; deleting the text-kind placeholder `"p4"` removes no overlay. -/
theorem c3_exact_match_cascade_witness :
    (handlePlaceholderDelete "p3"
      [{ id := "p3", type := "signature", label := "Sig", x := 10, y := 10,
         page := 0, value := some "img" }]
      [{ url := "img", x := 10, y := 10, page := 0 },
       { url := "img", x := 12, y := 10, page := 0 }]).2 =
      [{ url := "img", x := 12, y := 10, page := 0 }]
    ∧ (handlePlaceholderDelete "p4"
      [{ id := "p4", type := "text", label := "Name", x := 10, y := 10,
         page := 0, value := some "v" }]
      [{ url := "img", x := 10, y := 10, page := 0 }]).2 =
      [{ url := "img", x := 10, y := 10, page := 0 }] := by
  constructor
  · have h := (c3_exact_match_cascade "p3"
      [{ id := "p3", type := "signature", label := "Sig", x := 10, y := 10,
         page := 0, value := some "img" }]
      [{ url := "img", x := 10, y := 10, page := 0 },
       { url := "img", x := 12, y := 10, page := 0 }]
      { id := "p3", type := "signature", label := "Sig", x := 10, y := 10,
        page := 0, value := some "img" } (by simp [List.find?])).1 rfl
    rw [h]
    simp [List.filter, show ((12 : ℚ) == 10) = false from by decide]
  · exact (c3_exact_match_cascade "p4"
      [{ id := "p4", type := "text", label := "Name", x := 10, y := 10,
         page := 0, value := some "v" }]
      [{ url := "img", x := 10, y := 10, page := 0 }]
      { id := "p4", type := "text", label := "Name", x := 10, y := 10,
        page := 0, value := some "v" } (by simp [List.find?])).2 rfl

/-! ### C4: PDF text rendering -/

/-- C4 counterexample: in the PDF path a text placeholder with empty value
(`none`, or the empty string) on an in-range page produces NO draw call at
all — its label is never drawn as a fallback, contradicting the claim that
every text-kind placeholder is rendered. -/
theorem c4_counterexample :
    pdfTextDraws [792]
      [{ id := "p1", type := "text", label := "Name", x := 10, y := 20,
         page := 0, value := none }] = []
    ∧ pdfTextDraws [792]
      [{ id := "p2", type := "text", label := "Date", x := 10, y := 20,
         page := 0, value := some "" }] = [] := by
  constructor <;> simp [pdfTextDraws, textWithValue, isTruthy]

/-- C4 (amended): in the PDF path only text-kind placeholders with
non-empty value are rendered, the value string drawn at
`(x, pageHeight - y - 20)`, size 12, black fill; placeholders whose value
is empty are filtered out before the loop, so the `value || label`
fallback never draws a label.  The draw list is compositional over
appended placeholder lists. -/
theorem c4_pdf_text_nonempty_only :
    (∀ (pageHeights : List ℚ) (ps qs : List Placeholder),
        pdfTextDraws pageHeights (ps ++ qs) =
          pdfTextDraws pageHeights ps ++ pdfTextDraws pageHeights qs)
    ∧ (∀ (pageHeights : List ℚ) (p : Placeholder),
        isTruthy p.value = false → pdfTextDraws pageHeights [p] = [])
    ∧ (∀ (pageHeights : List ℚ) (p : Placeholder) (v : String) (h : ℚ),
        p.type = "text" → p.value = some v → v ≠ "" →
        pageHeights.get? p.page = some h →
        pdfTextDraws pageHeights [p] =
          [{ text := v, x := p.x, y := h - p.y - 20, size := 12,
             color := rgb 0 0 0 }]) := by
  refine ⟨?_, ?_, ?_⟩
  · intro pageHeights ps qs
    simp [pdfTextDraws, textWithValue, List.filter_append, List.filterMap_append]
  · intro pageHeights p hval
    simp [pdfTextDraws, textWithValue, hval]
  · intro pageHeights p v h htype hval hne hget
    have hfilter : textWithValue [p] = [p] := by
      simp [textWithValue, isTruthy, htype, hval, hne]
    simp only [pdfTextDraws]
    rw [hfilter, List.filterMap_cons, hget]
    simp [jsOrElse, hval, hne]

/-- C4 witness: a text placeholder with value `"Alice"` at `(5, 30)` on
page 0 of a 792-high page is drawn as the string `"Alice"` at
`(5, 792 - 30 - 20)`, size 12, black. -/
theorem c4_pdf_text_nonempty_only_witness :
    pdfTextDraws [792]
      [{ id := "p5", type := "text", label := "Name", x := 5, y := 30,
         page := 0, value := some "Alice" }] =
      [{ text := "Alice", x := 5, y := 792 - 30 - 20, size := 12,
         color := rgb 0 0 0 }] :=
  c4_pdf_text_nonempty_only.2.2 [792]
    { id := "p5", type := "text", label := "Name", x := 5, y := 30,
      page := 0, value := some "Alice" }
    "Alice" 792 rfl rfl (by decide) rfl

/-! ### C5: overlay placement idempotence -/

/-- C5: adding a signature overlay twice at the identical `(x, y, page)`
is idempotent — the second `handleApplySignature` is a no-op — and
starting from a store with no instance at that triple the result holds
exactly one instance there. -/
theorem c5_overlay_idempotent :
    ∀ (img : String) (signatures : List SignaturePosition) (position : Position),
      handleApplySignature (some img)
          (handleApplySignature (some img) signatures position) position =
        handleApplySignature (some img) signatures position
      ∧ (countAt signatures position = 0 →
          countAt (handleApplySignature (some img) signatures position) position = 1) := by
  intro img s pos
  by_cases h : s.any (fun sig =>
      sig.x == pos.x && sig.y == pos.y && sig.page == pos.page)
  · have hid : handleApplySignature (some img) s pos = s := by
      simp only [handleApplySignature, if_pos h]
    constructor
    · rw [hid, hid]
    · intro h0
      exfalso
      rw [List.any_eq_true] at h
      obtain ⟨sig, hmem, hm⟩ := h
      have : (s.filter (fun sig =>
          sig.x == pos.x && sig.y == pos.y && sig.page == pos.page)) = [] :=
        List.length_eq_zero.mp h0
      have := List.filter_eq_nil_iff.mp this sig hmem
      exact this hm
  · have hadd : handleApplySignature (some img) s pos =
        s ++ [({ url := img, x := pos.x, y := pos.y, page := pos.page } : SignaturePosition)] := by
      simp only [handleApplySignature, if_neg h]
    constructor
    · have hany : ((s ++ [({ url := img, x := pos.x, y := pos.y, page := pos.page } :
          SignaturePosition)]).any
          (fun sig => sig.x == pos.x && sig.y == pos.y && sig.page == pos.page)) = true := by
        simp [List.any_append]
      rw [hadd]
      simp only [handleApplySignature, if_pos hany]
    · intro h0
      rw [hadd, countAt, List.filter_append]
      have hnil : (s.filter (fun sig =>
          sig.x == pos.x && sig.y == pos.y && sig.page == pos.page)) = [] :=
        List.length_eq_zero.mp h0
      rw [hnil]
      simp

/-- C5 witness: the empty store has no instance at `(1, 2, page 0)`, and
after one (or a second, idempotent) add there is exactly one. -/
theorem c5_overlay_idempotent_witness :
    countAt ([] : List SignaturePosition) ⟨1, 2, 0⟩ = 0 ∧
      countAt (handleApplySignature (some "u") [] ⟨1, 2, 0⟩) ⟨1, 2, 0⟩ = 1 :=
  ⟨rfl, (c5_overlay_idempotent "u" [] ⟨1, 2, 0⟩).2 rfl⟩

/-! ### C6: PDF vertical flip of signature overlays -/

/-- C6: in the PDF path every successfully produced signature draw is at
`(x, pageHeight - y - 50)` with fixed render size 200×50, pairwise along
the overlay list. -/
theorem c6_pdf_signature_flip :
    ∀ (pageHeights : List ℚ) (signatures : List SignaturePosition)
      (draws : List ImageDraw),
      pdfSignatureDraws pageHeights signatures = Except.ok draws →
      List.Forall₂ (fun (sig : SignaturePosition) (d : ImageDraw) =>
        ∃ h, pageHeights.get? sig.page = some h ∧
          d = { url := sig.url, x := sig.x, y := h - sig.y - 50,
                width := 200, height := 50 }) signatures draws := by
  intro pageHeights signatures
  induction signatures with
  | nil =>
    intro draws hok
    simp only [pdfSignatureDraws] at hok
    cases hok
    exact List.Forall₂.nil
  | cons sig rest ih =>
    intro draws hok
    simp only [pdfSignatureDraws] at hok
    cases hget : pageHeights.get? sig.page with
    | none => rw [hget] at hok; cases hok
    | some h =>
      rw [hget] at hok
      cases hrec : pdfSignatureDraws pageHeights rest with
      | error e => rw [hrec] at hok; cases hok
      | ok tail =>
        rw [hrec] at hok
        cases hok
        exact List.Forall₂.cons ⟨h, hget, rfl⟩ (ih tail hrec)

/-- C6 witness: on a page of height 792 an overlay stored at document-space
`(100, 50)` is drawn at PDF-space `(100, 692)` with size 200×50. -/
theorem c6_pdf_signature_flip_witness :
    pdfSignatureDraws [792] [{ url := "u", x := 100, y := 50, page := 0 }] =
      Except.ok [{ url := "u", x := 100, y := 692, width := 200, height := 50 }]
    ∧ List.Forall₂ (fun (sig : SignaturePosition) (d : ImageDraw) =>
        ∃ h, [(792 : ℚ)].get? sig.page = some h ∧
          d = { url := sig.url, x := sig.x, y := h - sig.y - 50,
                width := 200, height := 50 })
      [{ url := "u", x := 100, y := 50, page := 0 }]
      [{ url := "u", x := 100, y := 692, width := 200, height := 50 }] := by
  have h1 : pdfSignatureDraws [792] [{ url := "u", x := 100, y := 50, page := 0 }] =
      Except.ok [{ url := "u", x := 100, y := 692, width := 200, height := 50 }] := by
    simp [pdfSignatureDraws]
    norm_num
  exact ⟨h1, c6_pdf_signature_flip [792] _ _ h1⟩

/-! ### C7: page-range error asymmetry -/

theorem pdfSignatureDraws_error_of_mem :
    ∀ (pageHeights : List ℚ) (signatures : List SignaturePosition),
      (∃ sig ∈ signatures, pageHeights.length ≤ sig.page) →
      pdfSignatureDraws pageHeights signatures = Except.error "Invalid page number" := by
  intro pageHeights signatures
  induction signatures with
  | nil => rintro ⟨sig, hmem, _⟩; cases hmem
  | cons s rest ih =>
    rintro ⟨sig, hmem, hge⟩
    rcases List.mem_cons.mp hmem with rfl | hmem'
    · have hnone : pageHeights.get? sig.page = none := List.get?_eq_none.mpr hge
      simp only [pdfSignatureDraws, hnone]
    · cases hget : pageHeights.get? s.page with
      | none => simp only [pdfSignatureDraws, hget]
      | some h =>
        have := ih ⟨sig, hmem', hge⟩
        simp only [pdfSignatureDraws, hget, this]

theorem pdfSignatureDraws_ok_of_inrange :
    ∀ (pageHeights : List ℚ) (signatures : List SignaturePosition),
      (∀ sig ∈ signatures, sig.page < pageHeights.length) →
      ∃ draws, pdfSignatureDraws pageHeights signatures = Except.ok draws := by
  intro pageHeights signatures
  induction signatures with
  | nil => intro _; exact ⟨[], rfl⟩
  | cons s rest ih =>
    intro hall
    have hs := hall s (List.mem_cons_self s rest)
    have hget : pageHeights.get? s.page = some (pageHeights.get ⟨s.page, hs⟩) :=
      List.get?_eq_get hs
    obtain ⟨tail, htail⟩ := ih (fun sig hmem => hall sig (List.mem_cons_of_mem s hmem))
    exact ⟨{ url := s.url, x := s.x,
             y := pageHeights.get ⟨s.page, hs⟩ - s.y - 50,
             width := 200, height := 50 } :: tail,
      by simp only [pdfSignatureDraws, hget, htail]⟩

/-- C7: finalize aborts with the `"Invalid page number"` error (producing
no artifact) whenever some signature overlay references a page at or
beyond the page count, while it completes whenever all overlay pages are
in range, and a text-kind placeholder with an out-of-range page is
silently dropped from the text loop. -/
theorem c7_page_range_asymmetry :
    ∀ (pageHeights : List ℚ) (signatures : List SignaturePosition)
      (placeholders : List Placeholder),
      ((∃ sig ∈ signatures, pageHeights.length ≤ sig.page) →
        finalizePdf pageHeights signatures placeholders =
          Except.error "Invalid page number")
      ∧ ((∀ sig ∈ signatures, sig.page < pageHeights.length) →
        ∃ draws, finalizePdf pageHeights signatures placeholders =
          Except.ok (draws, pdfTextDraws pageHeights placeholders))
      ∧ (∀ (p : Placeholder) (rest : List Placeholder),
          pageHeights.length ≤ p.page →
          pdfTextDraws pageHeights (p :: rest) = pdfTextDraws pageHeights rest) := by
  intro pageHeights signatures placeholders
  refine ⟨?_, ?_, ?_⟩
  · intro hex
    have := pdfSignatureDraws_error_of_mem pageHeights signatures hex
    simp only [finalizePdf, this]
  · intro hall
    obtain ⟨draws, hdraws⟩ := pdfSignatureDraws_ok_of_inrange pageHeights signatures hall
    refine ⟨draws, ?_⟩
    simp only [finalizePdf, hdraws]
  · intro p rest hge
    have hnone : pageHeights.get? p.page = none := List.get?_eq_none.mpr hge
    by_cases hp : (p.type == "text" && isTruthy p.value) = true
    · simp only [pdfTextDraws, textWithValue, List.filter_cons, hp,
        eq_self_iff_true, if_true]
      simp only [List.filterMap_cons, hnone]
    · simp only [pdfTextDraws, textWithValue, List.filter_cons]
      rw [Bool.not_eq_true] at hp
      simp [hp]

/-- C7 witness: with a single 792-high page, a lone signature overlay on
page 5 aborts the whole finalize with the invalid-page error, while a
text placeholder on page 3 is merely skipped. -/
theorem c7_page_range_asymmetry_witness :
    finalizePdf [792] [{ url := "u", x := 0, y := 0, page := 5 }] [] =
      Except.error "Invalid page number"
    ∧ pdfTextDraws [792]
        ({ id := "p9", type := "text", label := "L", x := 1, y := 2,
           page := 3, value := some "v" } :: []) = pdfTextDraws [792] [] := by
  constructor
  · exact (c7_page_range_asymmetry [792] [{ url := "u", x := 0, y := 0, page := 5 }] []).1
      ⟨{ url := "u", x := 0, y := 0, page := 5 }, List.mem_singleton_self _, by norm_num⟩
  · exact (c7_page_range_asymmetry [792] [] []).2.2
      { id := "p9", type := "text", label := "L", x := 1, y := 2,
        page := 3, value := some "v" } [] (by norm_num)

/-! ### C8: coordinate round-trip -/

/-- C8: for every pointer position, viewport origin and positive scale,
converting to document space and back to screen space returns the exact
original pointer position (the transforms are exact inverses over the
rationals, hence certainly within floating-point tolerance). -/
theorem c8_round_trip :
    ∀ (px py ox oy s : ℚ), 0 < s →
      toScreenSpace (toDocumentSpace px py ox oy s).1
        (toDocumentSpace px py ox oy s).2 ox oy s = (px, py) := by
  intro px py ox oy s hs
  have h0 : s ≠ 0 := ne_of_gt hs
  simp only [toDocumentSpace, toScreenSpace, Prod.mk.injEq]
  constructor
  · field_simp
  · field_simp

/-- C8 witness: pointer `(10, 20)`, viewport origin `(3, 4)`, scale 2
round-trips exactly. -/
theorem c8_round_trip_witness :
    (0 : ℚ) < 2 ∧
      toScreenSpace (toDocumentSpace 10 20 3 4 2).1
        (toDocumentSpace 10 20 3 4 2).2 3 4 2 = (10, 20) :=
  ⟨by norm_num, c8_round_trip 10 20 3 4 2 (by norm_num)⟩

/-! ### C9: recipient ordering modes -/

theorem handleOrderTypeChangeAux_orders_without :
    ∀ (n : Nat) (recipients : List Recipient),
      (handleOrderTypeChangeAux "without-order" n recipients).map (fun r => r.order) =
        recipients.map (fun _ => 1) := by
  intro n recipients
  induction recipients generalizing n with
  | nil => rfl
  | cons r rest ih => simp [handleOrderTypeChangeAux, ih]

theorem handleOrderTypeChangeAux_orders_with :
    ∀ (n : Nat) (recipients : List Recipient),
      (handleOrderTypeChangeAux "with-order" n recipients).map (fun r => r.order) =
        List.range' (n + 1) recipients.length := by
  intro n recipients
  induction recipients generalizing n with
  | nil => rfl
  | cons r rest ih =>
    simp only [handleOrderTypeChangeAux, List.map_cons, List.length_cons,
      List.range'_succ]
    refine congrArg₂ _ ?_ ?_
    · simp [show ("with-order" == "without-order") = false from by decide]
    · rw [ih (n + 1)]

theorem handleOrderTypeChangeAux_fields :
    ∀ (t : String) (n : Nat) (recipients : List Recipient),
      (handleOrderTypeChangeAux t n recipients).map
          (fun r => (r.id, r.name, r.email, r.status)) =
        recipients.map (fun r => (r.id, r.name, r.email, r.status)) := by
  intro t n recipients
  induction recipients generalizing n with
  | nil => rfl
  | cons r rest ih => simp [handleOrderTypeChangeAux, ih]

/-- C9: switching the ordering mode to `"without-order"` (simultaneous)
sets every recipient's order to 1; switching to `"with-order"`
(sequential) assigns the orders `1, 2, ..., N` by current list position
(`List.range' 1 N`); either switch leaves id, name, email and status of
every recipient unchanged. -/
theorem c9_order_modes :
    ∀ (recipients : List Recipient),
      (handleOrderTypeChange "without-order" recipients).map (fun r => r.order) =
        recipients.map (fun _ => 1)
      ∧ (handleOrderTypeChange "with-order" recipients).map (fun r => r.order) =
        List.range' 1 recipients.length
      ∧ (∀ t, (handleOrderTypeChange t recipients).map
            (fun r => (r.id, r.name, r.email, r.status)) =
          recipients.map (fun r => (r.id, r.name, r.email, r.status))) := by
  intro recipients
  refine ⟨?_, ?_, ?_⟩
  · exact handleOrderTypeChangeAux_orders_without 0 recipients
  · exact handleOrderTypeChangeAux_orders_with 0 recipients
  · intro t
    exact handleOrderTypeChangeAux_fields t 0 recipients

/-! ### C10: signature move-by-index safety -/

/-- C10: `handleSignatureMove` is total and safe at the boundary: a
negative or too-large index leaves the overlay store (hence every stored
instance) unchanged, while an in-range index replaces exactly the `x` and
`y` of the instance at that index and leaves every other index's entry
untouched. -/
theorem c10_move_by_index :
    ∀ (signatures : List SignaturePosition) (signatureIndex : Int) (newX newY : ℚ),
      ((signatureIndex < 0 ∨ (signatures.length : Int) ≤ signatureIndex) →
        handleSignatureMove signatures signatureIndex newX newY = signatures)
      ∧ (∀ (hlt : signatureIndex.toNat < signatures.length), 0 ≤ signatureIndex →
          handleSignatureMove signatures signatureIndex newX newY =
            signatures.set signatureIndex.toNat
              { signatures.get ⟨signatureIndex.toNat, hlt⟩ with x := newX, y := newY }
          ∧ (∀ j, j ≠ signatureIndex.toNat →
              (handleSignatureMove signatures signatureIndex newX newY).get? j =
                signatures.get? j)) := by
  intro signatures signatureIndex newX newY
  constructor
  · intro h
    simp only [handleSignatureMove, if_pos h]
  · intro hlt hnn
    have hcond : ¬(signatureIndex < 0 ∨ (signatures.length : Int) ≤ signatureIndex) := by
      push_neg
      omega
    have hset : handleSignatureMove signatures signatureIndex newX newY =
        signatures.set signatureIndex.toNat
          { signatures.get ⟨signatureIndex.toNat, hlt⟩ with x := newX, y := newY } := by
      simp only [handleSignatureMove, if_neg hcond, List.get?_eq_get hlt]
    refine ⟨hset, ?_⟩
    intro j hj
    rw [hset]
    exact List.get?_set_ne _ _ (Ne.symm hj)

/-- C10 witness: on a one-element store, moving index `-1` (and index `3`)
is a no-op, while moving index `0` to `(9, 9)` updates exactly that
instance. -/
theorem c10_move_by_index_witness :
    handleSignatureMove [{ url := "u", x := 1, y := 2, page := 0 }] (-1) 9 9 =
      [{ url := "u", x := 1, y := 2, page := 0 }]
    ∧ handleSignatureMove [{ url := "u", x := 1, y := 2, page := 0 }] 3 9 9 =
      [{ url := "u", x := 1, y := 2, page := 0 }]
    ∧ handleSignatureMove [{ url := "u", x := 1, y := 2, page := 0 }] 0 9 9 =
      [{ url := "u", x := 9, y := 9, page := 0 }] := by
  refine ⟨?_, ?_, ?_⟩
  · exact (c10_move_by_index [{ url := "u", x := 1, y := 2, page := 0 }] (-1) 9 9).1
      (Or.inl (by norm_num))
  · exact (c10_move_by_index [{ url := "u", x := 1, y := 2, page := 0 }] 3 9 9).1
      (Or.inr (by norm_num))
  · exact ((c10_move_by_index [{ url := "u", x := 1, y := 2, page := 0 }] 0 9 9).2
      (by norm_num) (by norm_num)).1

end SignDoc
